import Mathlib

/-!
Verification of the sound-localization server (jeloy-xii).

Shallow embedding of the server's core, translated from the JavaScript
source files: `soundDetection.js`, `localization/tdoa.js`, `store.js`,
`eventProcessor.js`, and `routes/packet.js`.  JavaScript numbers are
modelled as rationals; the irrational primitives `Math.sqrt` and
`Math.log10` are passed in as explicit function parameters (`sqrtFn`,
`lg`) so that all definitions stay computable, and theorems either hold
for every choice of that parameter or take hypotheses pinning down its
value at the finitely many points where it is applied.
-/

namespace SlotServer

/-- The three configured listeners.  `config.js` declares exactly the
keys phone-a, phone-b, phone-c; `Object.keys(DEVICES)` enumerates them
in this order. -/
inductive DeviceId : Type
  | phoneA
  | phoneB
  | phoneC
deriving DecidableEq, Repr, Fintype

open DeviceId

/-- Enumeration order of `Object.keys(DEVICES)` in the source. -/
def deviceIds : List DeviceId := [phoneA, phoneB, phoneC]

/-- Device positions in meters, from `config.js` (`DEVICES`). -/
def devicePos : DeviceId → ℚ × ℚ
  | phoneA => (-5, 1)
  | phoneB => (5, 1)
  | phoneC => (0, 7)

/-- Speed of sound in m/s, from `config.js`. -/
def SPEED_OF_SOUND : ℚ := 343

/-- Grouping window in ms, from `config.js`. -/
def EVENT_WINDOW_MS : ℚ := 200

/-- Modelled from the spec: `CLAP_THRESHOLD` is read from `config.js` by
`soundDetection.js` but the copy of `config.js` in the repository does not
define it; the spec's concrete scenarios use 10000.  The detector below
takes the threshold as an explicit parameter, and this constant is the
value the packet route is taken to use. -/
def CLAP_THRESHOLD : ℚ := 10000

/-- Modelled from the spec: `SYNC_WINDOW_MS` is read from `config.js` by
`routes/packet.js` but is missing from the repository's `config.js`; the
spec gives the default 5000 ms. -/
def SYNC_WINDOW_MS : ℚ := 5000

/-- Modelled from the spec: `SYNC_ROUNDS` is read from `config.js` by
`routes/packet.js` but is missing from the repository's `config.js`; the
spec gives the default 10 rounds. -/
def SYNC_ROUNDS : ℕ := 10

/-- One loudness sample sent by a phone: `{ deviceId, timestamp, loudnessDb }`. -/
structure Sample where
  deviceId : DeviceId
  timestamp : ℚ
  loudnessDb : ℚ
deriving DecidableEq, Repr

instance : Inhabited Sample := ⟨⟨phoneA, 0, 0⟩⟩

/-- Insert a sample into a timestamp-sorted list, after any sample with an
equal timestamp (matching the stable `Array.prototype.sort`). -/
def insertByTs (s : Sample) : List Sample → List Sample
  | [] => [s]
  | t :: ts => if s.timestamp < t.timestamp then s :: t :: ts else t :: insertByTs s ts

/-- Stable ascending sort by timestamp, modelling
`[...samples].sort((a, b) => a.timestamp - b.timestamp)`. -/
def sortByTs (l : List Sample) : List Sample :=
  l.foldl (fun acc s => insertByTs s acc) []

/-- The scan of `soundDetection.js` step 1: running over the remaining
samples with the previous loudness, the next index, and the best
jump/index so far, return the index of the largest strictly-positive
improvement (ties: the earliest index wins, because the source uses a
strict `>` to update). -/
def bigJumpAux (prev : ℚ) (i : ℕ) (bestJump : ℚ) (bestIdx : ℕ) : List Sample → ℕ
  | [] => bestIdx
  | s :: rest =>
    if s.loudnessDb - prev > bestJump then
      bigJumpAux s.loudnessDb (i + 1) (s.loudnessDb - prev) i rest
    else
      bigJumpAux s.loudnessDb (i + 1) bestJump bestIdx rest

/-- Index of the biggest single-step loudness increase of a (sorted) list.
The source initializes `bestJump = -Infinity`, so with two or more
samples the first difference always becomes the initial best. -/
def biggestJumpIdx : List Sample → ℕ
  | [] => 0
  | [_] => 0
  | s :: t :: rest => bigJumpAux t.loudnessDb 2 (t.loudnessDb - s.loudnessDb) 1 rest

/-- The backward walk of `soundDetection.js` step 2: starting at the
biggest-jump index, scan downward and return the first index `i ≥ 1`
whose predecessor sample is below the threshold; return 0 when every
earlier sample is already at or above the threshold. -/
def walkBack (l : List Sample) (threshold : ℚ) : ℕ → ℕ
  | 0 => 0
  | i + 1 =>
    if (l.getD i default).loudnessDb < threshold then i + 1
    else walkBack l threshold i

/-- `detectClapOnset` from `soundDetection.js`, with the clap threshold as
an explicit parameter (the source reads `CLAP_THRESHOLD` from config). -/
def detectClapOnset (threshold : ℚ) (samples : List Sample) : Option Sample :=
  if samples.length = 0 then none
  else if samples.length = 1 then some (samples.getD 0 default)
  else
    let sorted := sortByTs samples
    let onsetIdx := biggestJumpIdx sorted
    if (sorted.getD onsetIdx default).loudnessDb < threshold then none
    else
      let crossingIdx := walkBack sorted threshold onsetIdx
      if crossingIdx = 0 then some (sorted.getD 0 default)
      else
        let below := sorted.getD (crossingIdx - 1) default
        let above := sorted.getD crossingIdx default
        let range := above.loudnessDb - below.loudnessDb
        let fraction :=
          if range > 0 then max 0 (min 1 ((threshold - below.loudnessDb) / range))
          else (1 : ℚ) / 2
        let dt := above.timestamp - below.timestamp
        some ⟨above.deviceId, below.timestamp + fraction * dt,
              (sorted.getD onsetIdx default).loudnessDb⟩

/-- Shift a sample's timestamp by `δ`, leaving device and loudness alone. -/
def shiftSample (δ : ℚ) (s : Sample) : Sample :=
  { s with timestamp := s.timestamp + δ }

/-- A receiver handed to the TDOA solver by `eventProcessor.js`: device
id, configured position (m), adjusted timestamp (ms), stored loudness. -/
structure Receiver where
  deviceId : DeviceId
  x : ℚ
  y : ℚ
  timestamp : ℚ
  loudnessDb : ℚ
deriving DecidableEq, Repr

/-- `dist` from `localization/tdoa.js`: Euclidean distance.  The ambient
`Math.sqrt` is the explicit parameter `sqrtFn`. -/
def dist (sqrtFn : ℚ → ℚ) (x1 y1 x2 y2 : ℚ) : ℚ :=
  sqrtFn ((x1 - x2) ^ 2 + (y1 - y2) ^ 2)

/-- Time difference of arrival in seconds between a receiver and the
reference receiver `r0` (the solver's `tdoa10` and `tdoa20` locals). -/
def tdoaSec (r0 ri : Receiver) : ℚ := (ri.timestamp - r0.timestamp) / 1000

/-- Range difference in meters (the solver's `rd10` and `rd20` locals). -/
def rangeDiff (r0 ri : Receiver) : ℚ := tdoaSec r0 ri * SPEED_OF_SOUND

/-- The JavaScript pattern `d || 1e-9`: replace an exactly-zero distance
by the 1e-9 singularity guard. -/
def orTiny (d : ℚ) : ℚ := if d = 0 then 1 / 10 ^ 9 else d

/-- Iteration budget of the Gauss-Newton loop (`MAX_ITERATIONS`). -/
def MAX_ITERATIONS : ℕ := 200

/-- The Gauss-Newton loop of `localize`, with the remaining iteration
count as fuel.  Each step computes guarded distances, the two TDOA
residuals, the 2 by 2 normal equations, and either halts on a
near-singular matrix (before applying the update), or applies the update
and halts once both components are below the 1e-9 tolerance. -/
def gnIter (sqrtFn : ℚ → ℚ) (r0 r1 r2 : Receiver) : ℕ → ℚ → ℚ → ℚ × ℚ
  | 0, x, y => (x, y)
  | fuel + 1, x, y =>
    let d0 := orTiny (dist sqrtFn x y r0.x r0.y)
    let d1 := orTiny (dist sqrtFn x y r1.x r1.y)
    let d2 := orTiny (dist sqrtFn x y r2.x r2.y)
    let f1 := (d1 - d0) / SPEED_OF_SOUND - tdoaSec r0 r1
    let f2 := (d2 - d0) / SPEED_OF_SOUND - tdoaSec r0 r2
    let c := SPEED_OF_SOUND
    let j11 := (x - r1.x) / (c * d1) - (x - r0.x) / (c * d0)
    let j12 := (y - r1.y) / (c * d1) - (y - r0.y) / (c * d0)
    let j21 := (x - r2.x) / (c * d2) - (x - r0.x) / (c * d0)
    let j22 := (y - r2.y) / (c * d2) - (y - r0.y) / (c * d0)
    let A11 := j11 * j11 + j21 * j21
    let A12 := j11 * j12 + j21 * j22
    let A21 := A12
    let A22 := j12 * j12 + j22 * j22
    let b1 := -(j11 * f1 + j21 * f2)
    let b2 := -(j12 * f1 + j22 * f2)
    let det := A11 * A22 - A12 * A21
    if |det| < 1 / 10 ^ 20 then (x, y)
    else
      let dx := (A22 * b1 - A12 * b2) / det
      let dy := (A11 * b2 - A21 * b1) / det
      if |dx| < 1 / 10 ^ 9 ∧ |dy| < 1 / 10 ^ 9 then (x + dx, y + dy)
      else gnIter sqrtFn r0 r1 r2 fuel (x + dx) (y + dy)

/-- Initial Gauss-Newton estimate: the centroid of the three receivers. -/
def gnStart (r0 r1 r2 : Receiver) : ℚ × ℚ :=
  ((r0.x + r1.x + r2.x) / 3, (r0.y + r1.y + r2.y) / 3)

/-- The point at which the solver's Gauss-Newton iteration terminates. -/
def gnResult (sqrtFn : ℚ → ℚ) (r0 r1 r2 : Receiver) : ℚ × ℚ :=
  gnIter sqrtFn r0 r1 r2 MAX_ITERATIONS (gnStart r0 r1 r2).1 (gnStart r0 r1 r2).2

/-- `parseFloat(q.toFixed(d))`: rounding to `d` decimal places.  The
claims below never evaluate at an exact rounding tie, where JavaScript's
`toFixed` and the `round` convention could differ. -/
def roundTo (d : ℕ) (q : ℚ) : ℚ := (round (q * 10 ^ d) : ℤ) / 10 ^ d

/-- `ROOM_MARGIN` literal of `localization/tdoa.js`. -/
def ROOM_MARGIN : ℚ := 2

/-- The solver's `xMin` local, from the literals `-5 - ROOM_MARGIN`. -/
def roomXMin : ℚ := -5 - ROOM_MARGIN

/-- The solver's `xMax` local, from the literals `5 + ROOM_MARGIN`. -/
def roomXMax : ℚ := 5 + ROOM_MARGIN

/-- The solver's `yMin` local, from the literals `-3.5 - ROOM_MARGIN`. -/
def roomYMin : ℚ := -7 / 2 - ROOM_MARGIN

/-- The solver's `yMax` local, from the literals `3.5 + ROOM_MARGIN`. -/
def roomYMax : ℚ := 7 / 2 + ROOM_MARGIN

/-- The solver's position record: `{ x, y, residual }`. -/
structure Position where
  x : ℚ
  y : ℚ
  residual : ℚ
deriving DecidableEq, Repr

/-- `localize` from `localization/tdoa.js`, with the iteration budget as
a parameter (the source fixes it to `MAX_ITERATIONS = 200`; see
`localize` below).  Fewer than three receivers give `null`; the
feasibility gate precedes the Gauss-Newton loop; the hardcoded
room-bounds gate follows it. -/
def localizeFuel (sqrtFn : ℚ → ℚ) (iters : ℕ) : List Receiver → Option Position
  | r0 :: r1 :: r2 :: _ =>
    let rd10 := rangeDiff r0 r1
    let rd20 := rangeDiff r0 r2
    let maxRd10 := dist sqrtFn r0.x r0.y r1.x r1.y
    let maxRd20 := dist sqrtFn r0.x r0.y r2.x r2.y
    if |rd10| > maxRd10 ∨ |rd20| > maxRd20 then none
    else
      let p := gnIter sqrtFn r0 r1 r2 iters (gnStart r0 r1 r2).1 (gnStart r0 r1 r2).2
      let x := p.1
      let y := p.2
      let d0f := orTiny (dist sqrtFn x y r0.x r0.y)
      let d1f := orTiny (dist sqrtFn x y r1.x r1.y)
      let d2f := orTiny (dist sqrtFn x y r2.x r2.y)
      let res1 := |d1f - d0f - rd10|
      let res2 := |d2f - d0f - rd20|
      let residual := sqrtFn ((res1 ^ 2 + res2 ^ 2) / 2)
      if x < roomXMin ∨ x > roomXMax ∨ y < roomYMin ∨ y > roomYMax then none
      else some ⟨roundTo 4 x, roundTo 4 y, roundTo 6 residual⟩
  | _ => none

/-- `localize` from `localization/tdoa.js` with the source's fixed
200-iteration budget. -/
def localize (sqrtFn : ℚ → ℚ) (receivers : List Receiver) : Option Position :=
  localizeFuel sqrtFn MAX_ITERATIONS receivers

/-- An entry of the sync buffer: `{ timestamp, receivedAt }`. -/
structure SyncEntry where
  timestamp : ℚ
  receivedAt : ℚ
deriving DecidableEq, Repr

/-- A pending sound packet as pushed by the localize branch of
`routes/packet.js`. -/
structure PendingPacket where
  deviceId : DeviceId
  timestamp : ℚ
  adjustedTimestamp : ℚ
  loudnessDb : ℚ
  receivedAt : ℚ
deriving DecidableEq, Repr

/-- A per-device record inside a committed event. -/
structure EventDevice where
  deviceId : DeviceId
  adjustedTimestamp : ℚ
  loudnessDb : ℚ
deriving DecidableEq, Repr

/-- A committed sound event.  The `createdAt` ISO string of the source is
wall-clock presentation data and is not modelled. -/
structure SoundEvent where
  id : ℕ
  position : Option Position
  devices : List EventDevice
  timespanMs : ℚ
deriving DecidableEq, Repr

/-- The payload handed to `addSoundEvent` before the store assigns `id`
and `createdAt`. -/
structure EventData where
  position : Option Position
  devices : List EventDevice
  timespanMs : ℚ
deriving DecidableEq, Repr

/-- Server operating mode. -/
inductive Mode : Type
  | sync
  | localize
deriving DecidableEq, Repr

/-- The mutable module state of `store.js`. -/
structure Store where
  mode : Mode
  syncBuffer : DeviceId → Option SyncEntry
  syncRounds : List (DeviceId → ℚ)
  clockOffsets : DeviceId → Option ℚ
  pendingPackets : List PendingPacket
  soundEvents : List SoundEvent
  eventCounter : ℕ

/-- The state at boot: mode localize, everything empty, counter 0. -/
def initialStore : Store :=
  ⟨Mode.localize, fun _ => none, [], fun _ => none, [], [], 0⟩

/-- An empty sync buffer (the result of `clearSyncBuffer`). -/
def emptyBuf : DeviceId → Option SyncEntry := fun _ => none

/-- Number of devices present in the sync buffer
(`Object.values(syncBuffer).length`). -/
def countEntries (buf : DeviceId → Option SyncEntry) : ℕ :=
  (deviceIds.filterMap buf).length

/-- `Math.min` over a list; the empty case never occurs at the call
sites (the source spreads a nonempty array). -/
def minList : List ℚ → ℚ
  | [] => 0
  | x :: xs => xs.foldl min x

/-- `Math.min(...existingEntries.map(e => e.receivedAt))`. -/
def oldestReceivedAt (buf : DeviceId → Option SyncEntry) : ℚ :=
  minList ((deviceIds.filterMap buf).map (fun e => e.receivedAt))

/-- The sync buffer after the staleness check of `routes/packet.js`:
cleared whole when it is nonempty and its oldest entry is older than
`SYNC_WINDOW_MS`, untouched otherwise. -/
def syncBufAfterStaleCheck (now : ℚ) (buf : DeviceId → Option SyncEntry) :
    DeviceId → Option SyncEntry :=
  if countEntries buf ≠ 0 ∧ now - oldestReceivedAt buf > SYNC_WINDOW_MS then emptyBuf else buf

/-- `store.setSyncPacket(deviceId, timestamp)`: insert or overwrite the
entry of one device, stamping `receivedAt = now`. -/
def insertSyncPacket (d : DeviceId) (ts now : ℚ) (buf : DeviceId → Option SyncEntry) :
    DeviceId → Option SyncEntry :=
  fun e => if e = d then some ⟨ts, now⟩ else buf e

/-- `Math.min(...deviceIds.map(id => syncBuffer[id].timestamp))`; at the
call site every device is present. -/
def minSyncTimestamp (buf : DeviceId → Option SyncEntry) : ℚ :=
  minList (deviceIds.map (fun d => (((buf d).map (fun e => e.timestamp)).getD 0)))

/-- Per-round offsets of one completed round: `minTs - timestamp` per
device. -/
def roundOffsetsOf (buf : DeviceId → Option SyncEntry) : DeviceId → ℚ :=
  fun d => minSyncTimestamp buf - (((buf d).map (fun e => e.timestamp)).getD 0)

/-- Insert into an ascending-sorted list of rationals. -/
def insertRat (q : ℚ) : List ℚ → List ℚ
  | [] => [q]
  | x :: xs => if q < x then q :: x :: xs else x :: insertRat q xs

/-- Ascending numeric sort, modelling `values.sort((a, b) => a - b)`. -/
def sortRat : List ℚ → List ℚ
  | [] => []
  | x :: xs => insertRat x (sortRat xs)

/-- `computeMedianOffsets` from `routes/packet.js`: per device, sort the
per-round offsets ascending; even length takes the mean of the two
central values, odd length the central value. -/
def computeMedianOffsets (rounds : List (DeviceId → ℚ)) : DeviceId → ℚ :=
  fun d =>
    let values := sortRat (rounds.map (fun r => r d))
    let mid := values.length / 2
    if values.length % 2 = 0 then (values.getD (mid - 1) 0 + values.getD mid 0) / 2
    else values.getD mid 0

/-- The spec's definition of the median of a list of offsets, written
independently of the source for comparison: sort ascending; the median
of an even-sized list is the mean of the two central values, of an
odd-sized list the central value. -/
def medianSpec (l : List ℚ) : ℚ :=
  let s := sortRat l
  if l.length % 2 = 0 then (s.getD (l.length / 2 - 1) 0 + s.getD (l.length / 2) 0) / 2
  else s.getD (l.length / 2) 0

/-- `toDb` from `routes/packet.js`: `20 * log10(amplitude)` rounded to
one decimal, floored to 0 for amplitudes at most 1.  The ambient
`Math.log10` is the parameter `lg`. -/
def toDb (lg : ℚ → ℚ) (amplitude : ℚ) : ℚ :=
  if amplitude ≤ 1 then 0 else roundTo 1 (20 * lg amplitude)

/-- `store.addSoundEvent`: assign the next id, append, and drop the
oldest event once more than 100 are stored. -/
def addSoundEvent (data : EventData) (st : Store) : SoundEvent × Store :=
  let ev : SoundEvent := ⟨st.eventCounter + 1, data.position, data.devices, data.timespanMs⟩
  let evs := st.soundEvents ++ [ev]
  (ev, { st with eventCounter := st.eventCounter + 1,
                 soundEvents := if 100 < evs.length then evs.tail else evs })

/-- `store.addSoundEvent` iterated over a list of payloads. -/
def addSoundEvents (l : List EventData) (st : Store) : Store :=
  l.foldl (fun s dat => (addSoundEvent dat s).2) st

/-- `store.removePendingPackets`: for each listed packet, remove its
first occurrence from the queue (the source removes by object identity;
values stand in for identities here). -/
def removePendingPackets (group : List PendingPacket) (st : Store) : Store :=
  { st with pendingPackets := group.foldl (fun acc p => acc.erase p) st.pendingPackets }

/-- The pending packets of one device, in insertion order
(`byDevice` of `eventProcessor.js`). -/
def packetsFor (d : DeviceId) (ps : List PendingPacket) : List PendingPacket :=
  ps.filter (fun p => decide (p.deviceId = d))

/-- Whether every configured device has at least one pending packet. -/
def hasAllDevices (ps : List PendingPacket) : Bool :=
  deviceIds.all (fun d => !(packetsFor d ps).isEmpty)

/-- Span of a candidate triple: max minus min of adjusted timestamps. -/
def span (pa pb pc : PendingPacket) : ℚ :=
  max pa.adjustedTimestamp (max pb.adjustedTimestamp pc.adjustedTimestamp) -
    min pa.adjustedTimestamp (min pb.adjustedTimestamp pc.adjustedTimestamp)

/-- Innermost loop of the `combinations` generator: scan phone-c
candidates for the first triple within the window. -/
def findGroupC (pa pb : PendingPacket) :
    List PendingPacket → Option (PendingPacket × PendingPacket × PendingPacket)
  | [] => none
  | pc :: rest =>
    if span pa pb pc ≤ EVENT_WINDOW_MS then some (pa, pb, pc) else findGroupC pa pb rest

/-- Middle loop of the generator: scan phone-b candidates. -/
def findGroupB (pa : PendingPacket) (cList : List PendingPacket) :
    List PendingPacket → Option (PendingPacket × PendingPacket × PendingPacket)
  | [] => none
  | pb :: rest =>
    match findGroupC pa pb cList with
    | some g => some g
    | none => findGroupB pa cList rest

/-- Outer loop of the generator: scan phone-a candidates. -/
def findGroupA (bList cList : List PendingPacket) :
    List PendingPacket → Option (PendingPacket × PendingPacket × PendingPacket)
  | [] => none
  | pa :: rest =>
    match findGroupB pa cList bList with
    | some g => some g
    | none => findGroupA bList cList rest

/-- First triple (one packet per device, in the enumeration order of the
source's `combinations` generator: insertion order within a device,
devices in configured order) whose span is within `EVENT_WINDOW_MS`. -/
def firstGroupWithinWindow (ps : List PendingPacket) :
    Option (PendingPacket × PendingPacket × PendingPacket) :=
  findGroupA (packetsFor phoneB ps) (packetsFor phoneC ps) (packetsFor phoneA ps)

/-- Receiver records built by `eventProcessor.js` from a chosen group,
joining each packet with its configured device position. -/
def mkReceiver (p : PendingPacket) : Receiver :=
  ⟨p.deviceId, (devicePos p.deviceId).1, (devicePos p.deviceId).2,
   p.adjustedTimestamp, p.loudnessDb⟩

/-- `tryResolveEvent` from `eventProcessor.js`: if every device has a
pending packet, take the first in-window triple, localize it, commit an
event (possibly with a null position) and drop the three packets; if no
triple fits, evict packets older than ten windows.  Returns the new
event, if any, with the updated store. -/
def tryResolveEvent (sqrtFn : ℚ → ℚ) (now : ℚ) (st : Store) : Option SoundEvent × Store :=
  let ps := st.pendingPackets
  if hasAllDevices ps then
    match firstGroupWithinWindow ps with
    | some (pa, pb, pc) =>
      let receivers := [mkReceiver pa, mkReceiver pb, mkReceiver pc]
      let position := localize sqrtFn receivers
      let maxT := max pa.adjustedTimestamp (max pb.adjustedTimestamp pc.adjustedTimestamp)
      let minT := min pa.adjustedTimestamp (min pb.adjustedTimestamp pc.adjustedTimestamp)
      let devices := receivers.map (fun r => EventDevice.mk r.deviceId r.timestamp r.loudnessDb)
      let out := addSoundEvent ⟨position, devices, roundTo 3 (maxT - minT)⟩ st
      (some out.1, removePendingPackets [pa, pb, pc] out.2)
    | none =>
      let stale := ps.filter (fun p => decide (now - p.receivedAt > EVENT_WINDOW_MS * 10))
      (none, removePendingPackets stale st)
  else (none, st)

/-- Response shapes of POST /packet, reduced to their tags (message
strings and progress fields are presentation data). -/
inductive Resp : Type
  | noClap
  | syncWaiting
  | roundComplete
  | syncComplete
  | localized (ev : SoundEvent)
  | rejected (ev : SoundEvent)
  | pending
deriving Repr

/-- The sync branch of `router.post` in `routes/packet.js`, after
validation: detect an onset; run the staleness check on the buffer;
clear prior offsets when no rounds are collected and the pre-check
buffer snapshot was empty; insert the onset; and either finish the
round (and, at `SYNC_ROUNDS` rounds, commit median offsets, clear the
rounds and switch to localize mode) or keep waiting. -/
def handleSyncPacket (now : ℚ) (deviceId : DeviceId) (samples : List Sample) (st : Store) :
    Resp × Store :=
  match detectClapOnset CLAP_THRESHOLD samples with
  | none => (.noClap, st)
  | some onset =>
    let existingCount := countEntries st.syncBuffer
    let buf1 := syncBufAfterStaleCheck now st.syncBuffer
    let offs1 := if st.syncRounds.length = 0 ∧ existingCount = 0 then
                   (fun _ => none) else st.clockOffsets
    let buf2 := insertSyncPacket deviceId onset.timestamp now buf1
    let waiting := deviceIds.filter (fun d => (buf2 d).isNone)
    if waiting.isEmpty then
      let rounds := st.syncRounds ++ [roundOffsetsOf buf2]
      if rounds.length < SYNC_ROUNDS then
        (.roundComplete,
         { st with syncBuffer := emptyBuf, syncRounds := rounds, clockOffsets := offs1 })
      else
        let finalOffsets := computeMedianOffsets rounds
        (.syncComplete,
         { st with syncBuffer := emptyBuf, syncRounds := [],
                   clockOffsets := fun d => some (finalOffsets d), mode := Mode.localize })
    else (.syncWaiting, { st with syncBuffer := buf2, clockOffsets := offs1 })

/-- The packet a localize-mode request appends to the pending queue:
raw and offset-adjusted onset timestamps, and the onset loudness passed
through `toDb`. -/
def mkPendingPacket (lg : ℚ → ℚ) (now : ℚ) (deviceId : DeviceId) (offset : ℚ)
    (onset : Sample) : PendingPacket :=
  ⟨deviceId, onset.timestamp, onset.timestamp + offset, toDb lg onset.loudnessDb, now⟩

/-- The store after the localize branch appends the new pending packet
(`store.addPendingPacket` call site in `routes/packet.js`). -/
def localizeEnqueue (lg : ℚ → ℚ) (now : ℚ) (deviceId : DeviceId) (onset : Sample)
    (st : Store) : Store :=
  { st with pendingPackets :=
      st.pendingPackets ++
        [mkPendingPacket lg now deviceId ((st.clockOffsets deviceId).getD 0) onset] }

/-- `router.post` of `routes/packet.js` after validation: dispatch on the
current mode; in localize mode detect the onset, enqueue the adjusted
packet and attempt event resolution. -/
def handlePacket (sqrtFn lg : ℚ → ℚ) (now : ℚ) (samples : List Sample) (st : Store) :
    Resp × Store :=
  let deviceId := (samples.headD default).deviceId
  match st.mode with
  | Mode.sync => handleSyncPacket now deviceId samples st
  | Mode.localize =>
    match detectClapOnset CLAP_THRESHOLD samples with
    | none => (.noClap, st)
    | some onset =>
      let st1 := localizeEnqueue lg now deviceId onset st
      match tryResolveEvent sqrtFn now st1 with
      | (some ev, st2) =>
        (if ev.position.isSome then .localized ev else .rejected ev, st2)
      | (none, st2) => (.pending, st2)

/-! Concrete inputs used by witnesses and counterexamples.  The solver
theorems hold for every choice of the `Math.sqrt` / `Math.log10`
parameter; the concrete runs below use stubs that agree with the true
functions at every point where the run applies them. -/

/-- Square-root stub for runs whose gate arguments are never compared
against (all distances treated as 1). -/
def sqrtStub : ℚ → ℚ := fun _ => 1

/-- Square-root stub agreeing with the true square root at the one gate
argument of the infeasibility run (sqrt 100 = 10, the 10 m distance
between phone-a and phone-b). -/
def sqrtStub100 : ℚ → ℚ := fun a => if a = 100 then 10 else 1

/-- log10 stub agreeing with the true log10 at the one amplitude the
concrete localize-mode run stores: every stored amplitude is 100000 and
log10 100000 = 5. -/
def lgStub : ℚ → ℚ := fun _ => 5

/-- A minimal two-sample clump whose onset the detector resolves to
timestamp `t - 36 + (CLAP_THRESHOLD/100000)·36` with peak 100000. -/
def wClump (d : DeviceId) (t : ℚ) : List Sample :=
  [⟨d, t - 36, 0⟩, ⟨d, t, 100000⟩]

/-- Infeasible-TDOA run: phone-a and phone-b at their configured 10 m
separation with a 1000 ms timestamp difference (rd10 = 343 m > 10 m). -/
def rw1A : Receiver := ⟨phoneA, -5, 1, 0, 0⟩

/-- Second receiver of the infeasible-TDOA run. -/
def rw1B : Receiver := ⟨phoneB, 5, 1, 1000, 0⟩

/-- Third receiver of the infeasible-TDOA run. -/
def rw1C : Receiver := ⟨phoneC, 0, 7, 0, 0⟩

/-- Out-of-bounds run: equal timestamps make the Gauss-Newton loop
converge at the centroid (12, 12) on its first iteration. -/
def rw2A : Receiver := ⟨phoneA, 36, 0, 0, 0⟩

/-- Second receiver of the out-of-bounds run. -/
def rw2B : Receiver := ⟨phoneB, 0, 36, 0, 0⟩

/-- Third receiver of the out-of-bounds run. -/
def rw2C : Receiver := ⟨phoneC, 0, 0, 0, 0⟩

/-- Room-gate counterexample run: three receivers on the line y = 7 with
equal timestamps; the normal matrix is singular at the centroid (0, 7),
so the loop halts there - exactly the configured position of phone-c. -/
def rw2cA : Receiver := ⟨phoneA, -5, 7, 0, 0⟩

/-- Second receiver of the room-gate counterexample run. -/
def rw2cB : Receiver := ⟨phoneB, 5, 7, 0, 0⟩

/-- Third receiver of the room-gate counterexample run. -/
def rw2cC : Receiver := ⟨phoneC, 0, 7, 0, 0⟩

/-- Nine constant-zero sync rounds, one short of `SYNC_ROUNDS`. -/
def rounds9 : List (DeviceId → ℚ) := List.replicate 9 (fun _ => 0)

/-- Sync store one onset away from session finalization: phone-b and
phone-c already reported timestamp 100 (received recently), nine rounds
collected. -/
def stC3 : Store :=
  ⟨Mode.sync, (fun d => if d = phoneA then none else some ⟨100, 5900⟩),
   rounds9, fun _ => none, [], [], 0⟩

/-- Pending packets of the in-window triple used by the C6 run. -/
def pA6 : PendingPacket := ⟨phoneA, 10, 10, 50, 0⟩

/-- Second packet of the C6 run. -/
def pB6 : PendingPacket := ⟨phoneB, 10, 10, 60, 0⟩

/-- Third packet of the C6 run. -/
def pC6 : PendingPacket := ⟨phoneC, 10, 10, 70, 0⟩

/-- Store holding one pending packet per device with equal adjusted
timestamps. -/
def stC6 : Store :=
  ⟨Mode.localize, emptyBuf, [], fun _ => some 0, [pA6, pB6, pC6], [], 0⟩

/-- Pre-seeded phone-b packet of the loudness-transform run. -/
def pB7 : PendingPacket := ⟨phoneB, 100, 18 / 5, 77, 0⟩

/-- Pre-seeded phone-c packet of the loudness-transform run. -/
def pC7 : PendingPacket := ⟨phoneC, 100, 18 / 5, 88, 0⟩

/-- Localize-mode store awaiting a phone-a packet; all offsets zero, so
the phone-a onset at 18/5 ms completes a zero-span triple. -/
def stC7 : Store :=
  ⟨Mode.localize, emptyBuf, [], fun _ => some 0, [pB7, pC7], [], 0⟩

/-- Sync store with no rounds, a stale phone-a buffer entry (received at
0; the request arrives at 6000 > SYNC_WINDOW_MS), and a prior committed
offset for phone-a. -/
def stC8 : Store :=
  ⟨Mode.sync, (fun d => if d = phoneA then some ⟨0, 0⟩ else none), [],
   (fun d => if d = phoneA then some 5 else none), [], [], 0⟩

/-- Sync store with no rounds, an empty buffer, and a prior committed
offset, for the fresh-session witness. -/
def stC8w : Store :=
  ⟨Mode.sync, emptyBuf, [], (fun d => if d = phoneA then some 5 else none), [], [], 0⟩

/-- Sync store with nonempty pending queue and event log, to witness the
sync branch's frame property. -/
def stC10 : Store :=
  ⟨Mode.sync, emptyBuf, [], fun _ => none, [pA6], [⟨1, none, [], 0⟩], 1⟩

/-- The event the C6 run commits: zero span, position at the receiver
centroid (0, 3), residual stub value 1. -/
def evC6 : SoundEvent :=
  ⟨1, some ⟨0, 3, 1⟩, [⟨phoneA, 10, 50⟩, ⟨phoneB, 10, 60⟩, ⟨phoneC, 10, 70⟩], 0⟩

/-- Onset the detector extracts from `wClump phoneA 136`. -/
def onsetC3 : Sample := ⟨phoneA, 518 / 5, 100000⟩

/-- Onset the detector extracts from `wClump phoneA (198/5)`. -/
def onsetC7 : Sample := ⟨phoneA, 18 / 5, 100000⟩

/-- Onset the detector extracts from `wClump phoneB 100`. -/
def onsetC8 : Sample := ⟨phoneB, 338 / 5, 100000⟩

/-! Helper lemmas about the onset detector. -/

theorem shiftSample_timestamp (δ : ℚ) (s : Sample) :
    (shiftSample δ s).timestamp = s.timestamp + δ := rfl

theorem shiftSample_loudnessDb (δ : ℚ) (s : Sample) :
    (shiftSample δ s).loudnessDb = s.loudnessDb := rfl

theorem shiftSample_deviceId (δ : ℚ) (s : Sample) :
    (shiftSample δ s).deviceId = s.deviceId := rfl

theorem insertByTs_shift (δ : ℚ) (s : Sample) (l : List Sample) :
    insertByTs (shiftSample δ s) (l.map (shiftSample δ)) =
      (insertByTs s l).map (shiftSample δ) := by
  induction l with
  | nil => rfl
  | cons t ts ih =>
    simp only [List.map_cons, insertByTs, shiftSample_timestamp]
    by_cases h : s.timestamp < t.timestamp
    · rw [if_pos (by linarith), if_pos h, List.map_cons, List.map_cons]
    · rw [if_neg (by intro hc; exact h (by linarith)), if_neg h, List.map_cons, ih]

theorem sortByTs_shift_aux (δ : ℚ) (l acc : List Sample) :
    (l.map (shiftSample δ)).foldl (fun a s => insertByTs s a) (acc.map (shiftSample δ)) =
      (l.foldl (fun a s => insertByTs s a) acc).map (shiftSample δ) := by
  induction l generalizing acc with
  | nil => rfl
  | cons s ss ih =>
    simp only [List.map_cons, List.foldl_cons]
    rw [insertByTs_shift]
    exact ih _

theorem sortByTs_shift (δ : ℚ) (l : List Sample) :
    sortByTs (l.map (shiftSample δ)) = (sortByTs l).map (shiftSample δ) := by
  simpa [sortByTs] using sortByTs_shift_aux δ l []

theorem bigJumpAux_shift (δ : ℚ) (l : List Sample) :
    ∀ (prev : ℚ) (i : ℕ) (bj : ℚ) (bi : ℕ),
      bigJumpAux prev i bj bi (l.map (shiftSample δ)) = bigJumpAux prev i bj bi l := by
  induction l with
  | nil => intro prev i bj bi; rfl
  | cons s ss ih =>
    intro prev i bj bi
    simp only [List.map_cons, bigJumpAux, shiftSample_loudnessDb]
    split <;> exact ih _ _ _ _

theorem biggestJumpIdx_shift (δ : ℚ) (l : List Sample) :
    biggestJumpIdx (l.map (shiftSample δ)) = biggestJumpIdx l := by
  match l with
  | [] => rfl
  | [s] => rfl
  | s :: t :: rest =>
    simp only [List.map_cons, biggestJumpIdx, shiftSample_loudnessDb, bigJumpAux_shift]

theorem getD_map_shift_loudness (δ : ℚ) (l : List Sample) (i : ℕ) :
    ((l.map (shiftSample δ)).getD i default).loudnessDb = (l.getD i default).loudnessDb := by
  rw [List.getD_eq_getElem?_getD, List.getD_eq_getElem?_getD, List.getElem?_map]
  cases l[i]? with
  | none => rfl
  | some s => rfl

theorem getD_map_shift_deviceId (δ : ℚ) (l : List Sample) (i : ℕ) :
    ((l.map (shiftSample δ)).getD i default).deviceId = (l.getD i default).deviceId := by
  rw [List.getD_eq_getElem?_getD, List.getD_eq_getElem?_getD, List.getElem?_map]
  cases l[i]? with
  | none => rfl
  | some s => rfl

theorem getD_map_shift_of_lt (δ : ℚ) (l : List Sample) (i : ℕ) (h : i < l.length) :
    (l.map (shiftSample δ)).getD i default = shiftSample δ (l.getD i default) := by
  rw [List.getD_eq_getElem?_getD, List.getD_eq_getElem?_getD, List.getElem?_map,
    List.getElem?_eq_getElem h]
  rfl

theorem walkBack_shift (δ threshold : ℚ) (l : List Sample) :
    ∀ i, walkBack (l.map (shiftSample δ)) threshold i = walkBack l threshold i := by
  intro i
  induction i with
  | zero => rfl
  | succ n ih =>
    simp only [walkBack, getD_map_shift_loudness]
    by_cases h : (l.getD n default).loudnessDb < threshold <;> simp [h, ih]

theorem walkBack_le (l : List Sample) (threshold : ℚ) : ∀ i, walkBack l threshold i ≤ i := by
  intro i
  induction i with
  | zero => exact Nat.le_refl 0
  | succ n ih =>
    simp only [walkBack]
    split
    · exact Nat.le_refl _
    · exact Nat.le_trans ih (Nat.le_succ n)

theorem bigJumpAux_lt (l : List Sample) :
    ∀ (prev : ℚ) (i : ℕ) (bj : ℚ) (bi n : ℕ), bi < n → i + l.length ≤ n →
      bigJumpAux prev i bj bi l < n := by
  induction l with
  | nil => intro prev i bj bi n hbi _; simpa [bigJumpAux] using hbi
  | cons s ss ih =>
    intro prev i bj bi n hbi hlen
    simp only [List.length_cons] at hlen
    simp only [bigJumpAux]
    split
    · exact ih _ _ _ _ _ (by omega) (by omega)
    · exact ih _ _ _ _ _ hbi (by omega)

theorem biggestJumpIdx_lt (l : List Sample) (h : 2 ≤ l.length) :
    biggestJumpIdx l < l.length := by
  match l with
  | [] => simp at h
  | [s] => simp at h
  | s :: t :: rest =>
    simp only [biggestJumpIdx, List.length_cons]
    exact bigJumpAux_lt rest _ _ _ _ _ (by omega) (by omega)

theorem insertByTs_length (s : Sample) (l : List Sample) :
    (insertByTs s l).length = l.length + 1 := by
  induction l with
  | nil => rfl
  | cons t ts ih =>
    simp only [insertByTs]
    split
    · simp
    · simp [ih]

theorem sortByTs_length_aux (l acc : List Sample) :
    (l.foldl (fun a s => insertByTs s a) acc).length = l.length + acc.length := by
  induction l generalizing acc with
  | nil => simp
  | cons s ss ih =>
    simp only [List.foldl_cons, List.length_cons]
    rw [ih, insertByTs_length]
    omega

theorem sortByTs_length (l : List Sample) : (sortByTs l).length = l.length := by
  simpa [sortByTs] using sortByTs_length_aux l []

/-- C5: shifting every sample's timestamp by a constant commutes with the
detector: the outcome (none versus some), the device and the peak
loudness are unchanged, and a detected onset timestamp is shifted by
exactly the same constant. -/
theorem detectClapOnset_shift_equivariant (threshold δ : ℚ) (samples : List Sample) :
    detectClapOnset threshold (samples.map (shiftSample δ)) =
      (detectClapOnset threshold samples).map (shiftSample δ) := by
  unfold detectClapOnset
  rw [List.length_map]
  by_cases h0 : samples.length = 0
  · simp only [if_pos h0, Option.map_none']
  by_cases h1 : samples.length = 1
  · have hlt : 0 < samples.length := by omega
    simp only [if_neg h0, if_pos h1, Option.map_some']
    rw [getD_map_shift_of_lt δ samples 0 hlt]
  have h2 : 2 ≤ samples.length := by omega
  have hLlen : (sortByTs samples).length = samples.length := sortByTs_length samples
  simp only [if_neg h0, if_neg h1]
  rw [sortByTs_shift, biggestJumpIdx_shift, getD_map_shift_loudness, walkBack_shift]
  set L := sortByTs samples with hL
  set k := biggestJumpIdx L with hk
  by_cases hpk : (L.getD k default).loudnessDb < threshold
  · simp only [if_pos hpk, Option.map_none']
  simp only [if_neg hpk]
  set c := walkBack L threshold k with hc
  have hkL : k < L.length := by
    rw [hk]; exact biggestJumpIdx_lt L (by omega)
  have hck : c ≤ k := by rw [hc]; exact walkBack_le L threshold k
  by_cases hc0 : c = 0
  · simp only [if_pos hc0, Option.map_some']
    rw [getD_map_shift_of_lt δ L 0 (by omega)]
  · simp only [if_neg hc0, Option.map_some']
    rw [getD_map_shift_of_lt δ L c (by omega), getD_map_shift_of_lt δ L (c - 1) (by omega)]
    simp only [shiftSample_timestamp, shiftSample_loudnessDb, shiftSample_deviceId,
      shiftSample, Option.some.injEq, Sample.mk.injEq]
    refine ⟨trivial, by ring, trivial⟩

theorem walkBack_eq (l : List Sample) (threshold : ℚ) (c : ℕ) :
    ∀ k, 1 ≤ c → c ≤ k → (l.getD (c - 1) default).loudnessDb < threshold →
      (∀ i, c < i → i ≤ k → ¬(l.getD (i - 1) default).loudnessDb < threshold) →
      walkBack l threshold k = c := by
  intro k
  induction k with
  | zero => intro h1 hck _ _; omega
  | succ n ih =>
    intro h1 hck hbelow habove
    by_cases hkc : c = n + 1
    · subst hkc
      simp only [walkBack]
      rw [if_pos]
      simpa using hbelow
    · have hcn : c ≤ n := by omega
      simp only [walkBack]
      rw [if_neg (by simpa using habove (n + 1) (by omega) (by omega))]
      exact ih h1 hcn hbelow (fun i hi1 hi2 => habove i hi1 (by omega))

/-- C4: on an input of at least two samples whose biggest-jump sample
meets the threshold and which has a below-threshold sample strictly
before the biggest-jump index, the detector interpolates between the
crossing pair found walking backward from the jump (c is characterized
as the greatest index at most the jump index whose predecessor is below
threshold), with fraction clamp((threshold - below)/range) for positive
range and 1/2 otherwise, and reports the biggest-jump loudness as peak. -/
theorem detectClapOnset_interpolation (threshold : ℚ) (samples : List Sample) (c : ℕ)
    (h2 : 2 ≤ samples.length)
    (hpeak : ¬((sortByTs samples).getD (biggestJumpIdx (sortByTs samples)) default).loudnessDb
        < threshold)
    (hc1 : 1 ≤ c) (hck : c ≤ biggestJumpIdx (sortByTs samples))
    (hbelow : ((sortByTs samples).getD (c - 1) default).loudnessDb < threshold)
    (habove : ∀ i, c < i → i ≤ biggestJumpIdx (sortByTs samples) →
      ¬((sortByTs samples).getD (i - 1) default).loudnessDb < threshold) :
    detectClapOnset threshold samples =
      some ⟨((sortByTs samples).getD c default).deviceId,
            ((sortByTs samples).getD (c - 1) default).timestamp +
              (if ((sortByTs samples).getD c default).loudnessDb -
                    ((sortByTs samples).getD (c - 1) default).loudnessDb > 0 then
                 max 0 (min 1 ((threshold - ((sortByTs samples).getD (c - 1) default).loudnessDb) /
                   (((sortByTs samples).getD c default).loudnessDb -
                     ((sortByTs samples).getD (c - 1) default).loudnessDb)))
               else (1 : ℚ) / 2) *
              (((sortByTs samples).getD c default).timestamp -
                ((sortByTs samples).getD (c - 1) default).timestamp),
            ((sortByTs samples).getD (biggestJumpIdx (sortByTs samples)) default).loudnessDb⟩ := by
  unfold detectClapOnset
  rw [if_neg (by omega), if_neg (by omega), if_neg hpeak,
    walkBack_eq (sortByTs samples) threshold c (biggestJumpIdx (sortByTs samples))
      hc1 hck hbelow habove,
    if_neg (by omega)]

theorem detectClapOnset_interpolation_witness :
    detectClapOnset 10000 [⟨phoneA, 0, 0⟩, ⟨phoneA, 36, 25000⟩] =
      some ⟨phoneA, 72 / 5, 25000⟩ := by
  have h := detectClapOnset_interpolation 10000 [⟨phoneA, 0, 0⟩, ⟨phoneA, 36, 25000⟩] 1
    (by decide) (by decide) (by decide) (by decide) (by decide)
    (fun i hi1 hi2 => absurd (hi1.trans_le hi2) (by decide))
  rw [h]
  with_unfolding_all rfl

/-! Helper lemmas about the event correlator. -/

theorem findGroupC_spec (pa pb : PendingPacket) :
    ∀ cs a b c, findGroupC pa pb cs = some (a, b, c) →
      a = pa ∧ b = pb ∧ c ∈ cs ∧ span a b c ≤ EVENT_WINDOW_MS := by
  intro cs
  induction cs with
  | nil => intro a b c h; simp [findGroupC] at h
  | cons pc rest ih =>
    intro a b c h
    simp only [findGroupC] at h
    by_cases hsp : span pa pb pc ≤ EVENT_WINDOW_MS
    · rw [if_pos hsp] at h
      obtain ⟨rfl, rfl, rfl⟩ := by simpa using h
      exact ⟨rfl, rfl, List.mem_cons_self pc rest, hsp⟩
    · rw [if_neg hsp] at h
      obtain ⟨ha, hb, hc, hs⟩ := ih a b c h
      exact ⟨ha, hb, List.mem_cons_of_mem pc hc, hs⟩

theorem findGroupB_spec (pa : PendingPacket) (cList : List PendingPacket) :
    ∀ bs a b c, findGroupB pa cList bs = some (a, b, c) →
      a = pa ∧ b ∈ bs ∧ c ∈ cList ∧ span a b c ≤ EVENT_WINDOW_MS := by
  intro bs
  induction bs with
  | nil => intro a b c h; simp [findGroupB] at h
  | cons pb rest ih =>
    intro a b c h
    simp only [findGroupB] at h
    cases hfc : findGroupC pa pb cList with
    | some g =>
      rw [hfc] at h
      simp only [Option.some.injEq] at h
      subst h
      obtain ⟨ha, hb, hc, hs⟩ := findGroupC_spec pa pb cList a b c hfc
      exact ⟨ha, hb ▸ List.mem_cons_self pb rest, hc, hs⟩
    | none =>
      rw [hfc] at h
      obtain ⟨ha, hb, hc, hs⟩ := ih a b c h
      exact ⟨ha, List.mem_cons_of_mem pb hb, hc, hs⟩

theorem findGroupA_spec (bList cList : List PendingPacket) :
    ∀ as_ a b c, findGroupA bList cList as_ = some (a, b, c) →
      a ∈ as_ ∧ b ∈ bList ∧ c ∈ cList ∧ span a b c ≤ EVENT_WINDOW_MS := by
  intro as_
  induction as_ with
  | nil => intro a b c h; simp [findGroupA] at h
  | cons pa rest ih =>
    intro a b c h
    simp only [findGroupA] at h
    cases hfb : findGroupB pa cList bList with
    | some g =>
      rw [hfb] at h
      simp only [Option.some.injEq] at h
      subst h
      obtain ⟨ha, hb, hc, hs⟩ := findGroupB_spec pa cList bList a b c hfb
      exact ⟨ha ▸ List.mem_cons_self pa rest, hb, hc, hs⟩
    | none =>
      rw [hfb] at h
      obtain ⟨ha, hb, hc, hs⟩ := ih a b c h
      exact ⟨List.mem_cons_of_mem pa ha, hb, hc, hs⟩

theorem packetsFor_subset (d : DeviceId) (ps : List PendingPacket) (p : PendingPacket)
    (h : p ∈ packetsFor d ps) : p ∈ ps :=
  List.mem_of_mem_filter h

theorem firstGroupWithinWindow_spec (ps : List PendingPacket)
    (pa pb pc : PendingPacket) (h : firstGroupWithinWindow ps = some (pa, pb, pc)) :
    pa ∈ ps ∧ pb ∈ ps ∧ pc ∈ ps ∧ span pa pb pc ≤ EVENT_WINDOW_MS := by
  obtain ⟨ha, hb, hc, hs⟩ :=
    findGroupA_spec (packetsFor phoneB ps) (packetsFor phoneC ps) (packetsFor phoneA ps)
      pa pb pc h
  exact ⟨packetsFor_subset _ _ _ ha, packetsFor_subset _ _ _ hb,
    packetsFor_subset _ _ _ hc, hs⟩

theorem roundTo3_le_200 (q : ℚ) (h : q ≤ 200) : roundTo 3 q ≤ 200 := by
  unfold roundTo
  rw [div_le_iff₀ (by norm_num)]
  have h1 : round (q * 10 ^ 3) ≤ round (((200000 : ℤ) : ℚ)) := by
    rw [round_eq, round_eq]
    exact Int.floor_mono (by push_cast; linarith)
  rw [round_intCast] at h1
  calc ((round (q * 10 ^ 3) : ℤ) : ℚ) ≤ ((200000 : ℤ) : ℚ) := by exact_mod_cast h1
    _ = 200 * 10 ^ 3 := by norm_num

/-- C6: every event committed by `tryResolveEvent` has
`timespanMs ≤ EVENT_WINDOW_MS`, because a triple is accepted only when
the max minus min of its adjusted timestamps is within the window. -/
theorem event_timespan_within_window (sqrtFn : ℚ → ℚ) (now : ℚ) (st : Store) (ev : SoundEvent)
    (h : (tryResolveEvent sqrtFn now st).1 = some ev) :
    ev.timespanMs ≤ EVENT_WINDOW_MS := by
  unfold tryResolveEvent at h
  by_cases hall : hasAllDevices st.pendingPackets
  · rw [if_pos hall] at h
    cases hg : firstGroupWithinWindow st.pendingPackets with
    | none => rw [hg] at h; simp at h
    | some g =>
      obtain ⟨pa, pb, pc⟩ := g
      rw [hg] at h
      simp only [addSoundEvent, Option.some.injEq] at h
      obtain ⟨_, _, _, hspan⟩ := firstGroupWithinWindow_spec st.pendingPackets pa pb pc hg
      have hts : ev.timespanMs =
          roundTo 3 (max pa.adjustedTimestamp (max pb.adjustedTimestamp pc.adjustedTimestamp) -
            min pa.adjustedTimestamp (min pb.adjustedTimestamp pc.adjustedTimestamp)) := by
        rw [← h]
      rw [hts]
      have h200 : (EVENT_WINDOW_MS : ℚ) = 200 := rfl
      rw [h200]
      exact roundTo3_le_200 _ (by have := hspan; rw [span] at this; rw [h200] at this; exact this)
  · rw [if_neg hall] at h
    simp at h

theorem event_timespan_witness :
    (tryResolveEvent sqrtStub 0 stC6).1 = some evC6 ∧ evC6.timespanMs ≤ EVENT_WINDOW_MS :=
  ⟨by with_unfolding_all rfl,
   event_timespan_within_window sqrtStub 0 stC6 evC6 (by with_unfolding_all rfl)⟩

theorem localize_some_le (sqrtFn : ℚ → ℚ) (r0 r1 r2 : Receiver) (rest : List Receiver)
    (p : Position) (hp : localize sqrtFn (r0 :: r1 :: r2 :: rest) = some p) :
    |rangeDiff r0 r1| ≤ dist sqrtFn r0.x r0.y r1.x r1.y ∧
      |rangeDiff r0 r2| ≤ dist sqrtFn r0.x r0.y r2.x r2.y := by
  simp only [localize, localizeFuel] at hp
  by_cases hg : |rangeDiff r0 r1| > dist sqrtFn r0.x r0.y r1.x r1.y ∨
      |rangeDiff r0 r2| > dist sqrtFn r0.x r0.y r2.x r2.y
  · rw [if_pos hg] at hp
    exact absurd hp (by simp)
  · push_neg at hg
    exact hg

/-- C1: with three receivers, an absolute range difference exceeding the
inter-receiver distance makes the solver return null under any iteration
budget - in particular the zero budget, so no Gauss-Newton iteration is
consulted; conversely any non-null solver result, and hence the position
of any committed event with non-null position, satisfies both gate
inequalities. -/
theorem tdoa_infeasible_gate (sqrtFn : ℚ → ℚ) (r0 r1 r2 : Receiver) (rest : List Receiver) :
    ((|rangeDiff r0 r1| > dist sqrtFn r0.x r0.y r1.x r1.y ∨
        |rangeDiff r0 r2| > dist sqrtFn r0.x r0.y r2.x r2.y) →
      ∀ iters, localizeFuel sqrtFn iters (r0 :: r1 :: r2 :: rest) = none) ∧
    (∀ p, localize sqrtFn (r0 :: r1 :: r2 :: rest) = some p →
      |rangeDiff r0 r1| ≤ dist sqrtFn r0.x r0.y r1.x r1.y ∧
        |rangeDiff r0 r2| ≤ dist sqrtFn r0.x r0.y r2.x r2.y) ∧
    (∀ now st ev, (tryResolveEvent sqrtFn now st).1 = some ev → ev.position.isSome = true →
      ∃ pa pb pc : PendingPacket, pa ∈ st.pendingPackets ∧ pb ∈ st.pendingPackets ∧
        pc ∈ st.pendingPackets ∧
        ev.position = localize sqrtFn [mkReceiver pa, mkReceiver pb, mkReceiver pc] ∧
        |rangeDiff (mkReceiver pa) (mkReceiver pb)| ≤
          dist sqrtFn (mkReceiver pa).x (mkReceiver pa).y (mkReceiver pb).x (mkReceiver pb).y ∧
        |rangeDiff (mkReceiver pa) (mkReceiver pc)| ≤
          dist sqrtFn (mkReceiver pa).x (mkReceiver pa).y (mkReceiver pc).x (mkReceiver pc).y) := by
  refine ⟨?_, ?_, ?_⟩
  · intro h iters
    simp only [localizeFuel]
    rw [if_pos h]
  · intro p hp
    exact localize_some_le sqrtFn r0 r1 r2 rest p hp
  · intro now st ev hev hpos
    unfold tryResolveEvent at hev
    by_cases hall : hasAllDevices st.pendingPackets
    · rw [if_pos hall] at hev
      cases hg : firstGroupWithinWindow st.pendingPackets with
      | none => rw [hg] at hev; simp at hev
      | some g =>
        obtain ⟨pa, pb, pc⟩ := g
        rw [hg] at hev
        simp only [Option.some.injEq] at hev
        obtain ⟨hma, hmb, hmc, _⟩ := firstGroupWithinWindow_spec st.pendingPackets pa pb pc hg
        have hevp : ev.position =
            localize sqrtFn [mkReceiver pa, mkReceiver pb, mkReceiver pc] := by
          rw [← hev]
          simp [addSoundEvent]
        rw [hevp] at hpos
        obtain ⟨p, hp⟩ := Option.isSome_iff_exists.mp hpos
        obtain ⟨h1, h2⟩ := localize_some_le sqrtFn (mkReceiver pa) (mkReceiver pb)
          (mkReceiver pc) [] p hp
        exact ⟨pa, pb, pc, hma, hmb, hmc, hevp, h1, h2⟩
    · rw [if_neg hall] at hev
      simp at hev

theorem tdoa_infeasible_witness :
    localizeFuel sqrtStub100 0 [rw1A, rw1B, rw1C] = none ∧
      localize sqrtStub100 [rw1A, rw1B, rw1C] = none :=
  ⟨(tdoa_infeasible_gate sqrtStub100 rw1A rw1B rw1C []).1
     (Or.inl (of_decide_eq_true (by with_unfolding_all rfl))) 0,
   (tdoa_infeasible_gate sqrtStub100 rw1A rw1B rw1C []).1
     (Or.inl (of_decide_eq_true (by with_unfolding_all rfl))) MAX_ITERATIONS⟩

/-- C2 (amended): when the Gauss-Newton loop terminates at a point
outside the solver's hardcoded bounds - the literals x in [-7, 7] and
y in [-11/2, 11/2], the room rectangle [-5, 5] x [-7/2, 7/2] widened by
the 2 m margin - `localize` returns null.  The bounds are constants of
`localization/tdoa.js`; they are not read from the configuration. -/
theorem tdoa_room_bounds_gate (sqrtFn : ℚ → ℚ) (r0 r1 r2 : Receiver) (rest : List Receiver)
    (x y : ℚ) (hgn : gnResult sqrtFn r0 r1 r2 = (x, y))
    (hout : x < roomXMin ∨ x > roomXMax ∨ y < roomYMin ∨ y > roomYMax) :
    localize sqrtFn (r0 :: r1 :: r2 :: rest) = none := by
  have hgn' : gnIter sqrtFn r0 r1 r2 MAX_ITERATIONS (gnStart r0 r1 r2).1 (gnStart r0 r1 r2).2 =
      (x, y) := hgn
  unfold localize
  simp only [localizeFuel, hgn']
  by_cases hg : |rangeDiff r0 r1| > dist sqrtFn r0.x r0.y r1.x r1.y ∨
      |rangeDiff r0 r2| > dist sqrtFn r0.x r0.y r2.x r2.y
  · rw [if_pos hg]
  · rw [if_neg hg, if_pos hout]

theorem tdoa_room_bounds_witness :
    gnResult sqrtStub rw2A rw2B rw2C = (12, 12) ∧
      localize sqrtStub [rw2A, rw2B, rw2C] = none :=
  ⟨by with_unfolding_all rfl,
   tdoa_room_bounds_gate sqrtStub rw2A rw2B rw2C [] 12 12 (by with_unfolding_all rfl)
     (Or.inr (Or.inl (of_decide_eq_true (by with_unfolding_all rfl))))⟩

set_option maxRecDepth 4096 in
/-- C2 counterexample to "the room bounds are taken from the
configuration": the Gauss-Newton loop terminates exactly at (0, 7), the
configured position of phone-c - a point inside any room that contains
the configured devices, and so inside that room extended by the 2 m
margin - yet the solver rejects it, because the hardcoded yMax = 11/2
lies below the configured device's y coordinate. -/
theorem tdoa_room_bounds_hardcoded_cex :
    gnResult sqrtStub rw2cA rw2cB rw2cC = ((devicePos phoneC).1, (devicePos phoneC).2) ∧
      roomYMax < (devicePos phoneC).2 ∧
      localize sqrtStub [rw2cA, rw2cB, rw2cC] = none :=
  ⟨by with_unfolding_all rfl, of_decide_eq_true (by with_unfolding_all rfl),
   by with_unfolding_all rfl⟩

/-! Helper lemmas about the sync coordinator. -/

theorem insertRat_length (q : ℚ) (l : List ℚ) : (insertRat q l).length = l.length + 1 := by
  induction l with
  | nil => rfl
  | cons x xs ih =>
    simp only [insertRat]
    split
    · simp
    · simp [ih]

theorem sortRat_length (l : List ℚ) : (sortRat l).length = l.length := by
  induction l with
  | nil => rfl
  | cons x xs ih => simp [sortRat, insertRat_length, ih]

theorem computeMedianOffsets_eq_medianSpec (rounds : List (DeviceId → ℚ)) (d : DeviceId) :
    computeMedianOffsets rounds d = medianSpec (rounds.map (fun r => r d)) := by
  simp only [computeMedianOffsets, medianSpec, sortRat_length]

theorem syncWaiting_isEmpty_of_complete (buf : DeviceId → Option SyncEntry)
    (h : ∀ d, (buf d).isSome = true) :
    (deviceIds.filter (fun d => (buf d).isNone)).isEmpty = true := by
  obtain ⟨a, hA⟩ := Option.isSome_iff_exists.mp (h phoneA)
  obtain ⟨b, hB⟩ := Option.isSome_iff_exists.mp (h phoneB)
  obtain ⟨c, hC⟩ := Option.isSome_iff_exists.mp (h phoneC)
  simp [deviceIds, List.filter, hA, hB, hC]

/-- C3: when the round completed by this onset brings the collected
rounds to `SYNC_ROUNDS`, the committed clock offset of every listener is
the median (even length: mean of the two central values after sorting)
of that listener's per-round offsets over all collected rounds,
including the final one; the rounds list is cleared and the mode
switches to localize. -/
theorem sync_session_finalization (sqrtFn lg : ℚ → ℚ) (now : ℚ) (samples : List Sample)
    (st : Store) (onset : Sample)
    (hmode : st.mode = Mode.sync)
    (hdet : detectClapOnset CLAP_THRESHOLD samples = some onset)
    (hcomplete : ∀ d, ((insertSyncPacket (samples.headD default).deviceId onset.timestamp now
        (syncBufAfterStaleCheck now st.syncBuffer)) d).isSome = true)
    (hcount : st.syncRounds.length + 1 = SYNC_ROUNDS) :
    (∀ d, (handlePacket sqrtFn lg now samples st).2.clockOffsets d =
        some (medianSpec ((st.syncRounds ++
          [roundOffsetsOf (insertSyncPacket (samples.headD default).deviceId onset.timestamp now
            (syncBufAfterStaleCheck now st.syncBuffer))]).map (fun r => r d)))) ∧
    (handlePacket sqrtFn lg now samples st).2.syncRounds = [] ∧
    (handlePacket sqrtFn lg now samples st).2.mode = Mode.localize := by
  have hw := syncWaiting_isEmpty_of_complete _ hcomplete
  have hlen : ¬(st.syncRounds ++
      [roundOffsetsOf (insertSyncPacket (samples.headD default).deviceId onset.timestamp now
        (syncBufAfterStaleCheck now st.syncBuffer))]).length < SYNC_ROUNDS := by
    rw [List.length_append, List.length_singleton]
    omega
  have hmain : (handlePacket sqrtFn lg now samples st).2 =
      { st with syncBuffer := emptyBuf, syncRounds := [],
                clockOffsets := (fun d => some (computeMedianOffsets (st.syncRounds ++
                  [roundOffsetsOf (insertSyncPacket (samples.headD default).deviceId
                    onset.timestamp now (syncBufAfterStaleCheck now st.syncBuffer))]) d)),
                mode := Mode.localize } := by
    simp only [handlePacket, hmode, handleSyncPacket, hdet]
    rw [if_pos hw, if_neg hlen]
  rw [hmain]
  exact ⟨fun d => by simp [computeMedianOffsets_eq_medianSpec], rfl, rfl⟩

theorem sync_session_witness :
    (handlePacket sqrtStub lgStub 6000 (wClump phoneA 136) stC3).2.mode = Mode.localize :=
  (sync_session_finalization sqrtStub lgStub 6000 (wClump phoneA 136) stC3 onsetC3 rfl
    (by with_unfolding_all rfl) (of_decide_eq_true (by with_unfolding_all rfl))
    (by with_unfolding_all rfl)).2.2

/-- C8 (amended): on an accepted sync onset with no rounds collected,
prior clock offsets are cleared when the sync buffer was empty in the
snapshot taken before the stale check - the code tests the pre-discard
snapshot, so emptiness created by the stale discard itself does not
trigger the clearing. -/
theorem sync_fresh_session_clears_offsets (sqrtFn lg : ℚ → ℚ) (now : ℚ)
    (samples : List Sample) (st : Store) (onset : Sample)
    (hmode : st.mode = Mode.sync)
    (hdet : detectClapOnset CLAP_THRESHOLD samples = some onset)
    (hrounds : st.syncRounds = [])
    (hbuf : ∀ d, st.syncBuffer d = none) :
    ∀ d, (handlePacket sqrtFn lg now samples st).2.clockOffsets d = none := by
  intro d
  have hcount : countEntries st.syncBuffer = 0 := by
    simp [countEntries, deviceIds, hbuf]
  have hstale : syncBufAfterStaleCheck now st.syncBuffer = st.syncBuffer := by
    unfold syncBufAfterStaleCheck
    rw [if_neg]
    simp [hcount]
  have hwait : ((deviceIds.filter (fun e =>
      ((insertSyncPacket (samples.headD default).deviceId onset.timestamp now
        st.syncBuffer) e).isNone))).isEmpty = false := by
    rcases hdd : (samples.headD default).deviceId with _ | _ | _ <;>
      simp [deviceIds, insertSyncPacket, hbuf, hdd]
  simp only [handlePacket, hmode, handleSyncPacket, hdet, hstale, hcount, hrounds]
  rw [if_neg (by rw [hwait]; decide)]
  simp

theorem sync_fresh_session_witness :
    (handlePacket sqrtStub lgStub 0 (wClump phoneB 100) stC8w).2.clockOffsets phoneA = none :=
  sync_fresh_session_clears_offsets sqrtStub lgStub 0 (wClump phoneB 100) stC8w onsetC8 rfl
    (by with_unfolding_all rfl) rfl (fun _ => rfl) phoneA

/-- C8 counterexample: the store `stC8` has no rounds, one stale buffer
entry and a prior committed offset for phone-a; the arriving onset makes
the stale check discard the buffer, so the buffer is empty immediately
before the insertion, yet the handler leaves the prior offset in place,
because the emptiness test reads the pre-discard snapshot. -/
theorem sync_stale_discard_keeps_offsets_cex :
    syncBufAfterStaleCheck 6000 stC8.syncBuffer phoneA = none ∧
    syncBufAfterStaleCheck 6000 stC8.syncBuffer phoneB = none ∧
    syncBufAfterStaleCheck 6000 stC8.syncBuffer phoneC = none ∧
    stC8.syncRounds = [] ∧
    stC8.clockOffsets phoneA = some 5 ∧
    (handlePacket sqrtStub lgStub 6000 (wClump phoneB 100) stC8).2.clockOffsets phoneA =
      some 5 :=
  ⟨by with_unfolding_all rfl, by with_unfolding_all rfl, by with_unfolding_all rfl,
   rfl, rfl, by with_unfolding_all rfl⟩

/-- C10: while the mode is sync, handling a packet never changes the
pending queue, the stored sound events, or the event counter - only the
sync buffer, the sync rounds, the clock offsets, and the mode may
change. -/
theorem sync_mode_frame (sqrtFn lg : ℚ → ℚ) (now : ℚ) (samples : List Sample) (st : Store)
    (hmode : st.mode = Mode.sync) :
    (handlePacket sqrtFn lg now samples st).2.pendingPackets = st.pendingPackets ∧
    (handlePacket sqrtFn lg now samples st).2.soundEvents = st.soundEvents ∧
    (handlePacket sqrtFn lg now samples st).2.eventCounter = st.eventCounter := by
  simp only [handlePacket, hmode]
  unfold handleSyncPacket
  rcases hdet : detectClapOnset CLAP_THRESHOLD samples with _ | onset
  · exact ⟨rfl, rfl, rfl⟩
  · simp only []
    split
    · split
      · exact ⟨rfl, rfl, rfl⟩
      · exact ⟨rfl, rfl, rfl⟩
    · exact ⟨rfl, rfl, rfl⟩

theorem sync_mode_frame_witness :
    (handlePacket sqrtStub lgStub 0 (wClump phoneA 50) stC10).2.pendingPackets =
      stC10.pendingPackets :=
  (sync_mode_frame sqrtStub lgStub 0 (wClump phoneA 50) stC10 rfl).1

/-- C7 (amended): the detector compares loudness to the threshold in raw
input units (its type mentions no transform), but in localize mode the
packet enters the pending queue with `toDb` - the 20 log10 decibel
transform, rounded to one decimal, 0 for amplitudes at most 1 - applied
to the detector's peak; event records then copy the stored (transformed)
pending values verbatim. -/
theorem loudness_toDb_between_detector_and_store (sqrtFn lg : ℚ → ℚ) (now : ℚ)
    (samples : List Sample) (st : Store) (onset : Sample)
    (hmode : st.mode = Mode.localize)
    (hdet : detectClapOnset CLAP_THRESHOLD samples = some onset) :
    (handlePacket sqrtFn lg now samples st).2 =
      (tryResolveEvent sqrtFn now
        (localizeEnqueue lg now (samples.headD default).deviceId onset st)).2 ∧
    (localizeEnqueue lg now (samples.headD default).deviceId onset st).pendingPackets =
      st.pendingPackets ++ [mkPendingPacket lg now (samples.headD default).deviceId
        ((st.clockOffsets (samples.headD default).deviceId).getD 0) onset] ∧
    (mkPendingPacket lg now (samples.headD default).deviceId
        ((st.clockOffsets (samples.headD default).deviceId).getD 0) onset).loudnessDb =
      toDb lg onset.loudnessDb ∧
    (∀ ev, (tryResolveEvent sqrtFn now
        (localizeEnqueue lg now (samples.headD default).deviceId onset st)).1 = some ev →
      ∀ e ∈ ev.devices,
        ∃ p ∈ (localizeEnqueue lg now (samples.headD default).deviceId onset st).pendingPackets,
          e.deviceId = p.deviceId ∧ e.loudnessDb = p.loudnessDb ∧
            e.adjustedTimestamp = p.adjustedTimestamp) := by
  refine ⟨?_, rfl, rfl, ?_⟩
  · simp only [handlePacket, hmode, hdet]
    rcases htr : tryResolveEvent sqrtFn now
        (localizeEnqueue lg now (samples.headD default).deviceId onset st) with ⟨oev, st2⟩
    cases oev <;> simp [htr]
  · intro ev hev e he
    unfold tryResolveEvent at hev
    by_cases hall : hasAllDevices
        (localizeEnqueue lg now (samples.headD default).deviceId onset st).pendingPackets
    · rw [if_pos hall] at hev
      cases hg : firstGroupWithinWindow
          (localizeEnqueue lg now (samples.headD default).deviceId onset st).pendingPackets with
      | none => rw [hg] at hev; simp at hev
      | some g =>
        obtain ⟨pa, pb, pc⟩ := g
        rw [hg] at hev
        simp only [Option.some.injEq] at hev
        obtain ⟨hma, hmb, hmc, _⟩ := firstGroupWithinWindow_spec _ pa pb pc hg
        have hdevs : ev.devices =
            [⟨pa.deviceId, pa.adjustedTimestamp, pa.loudnessDb⟩,
             ⟨pb.deviceId, pb.adjustedTimestamp, pb.loudnessDb⟩,
             ⟨pc.deviceId, pc.adjustedTimestamp, pc.loudnessDb⟩] := by
          rw [← hev]
          simp [addSoundEvent, mkReceiver]
        rw [hdevs] at he
        simp only [List.mem_cons, List.not_mem_nil, or_false] at he
        rcases he with rfl | rfl | rfl
        · exact ⟨pa, hma, rfl, rfl, rfl⟩
        · exact ⟨pb, hmb, rfl, rfl, rfl⟩
        · exact ⟨pc, hmc, rfl, rfl, rfl⟩
    · rw [if_neg hall] at hev
      simp at hev

theorem loudness_toDb_witness :
    (mkPendingPacket lgStub 0 ((wClump phoneA 36).headD default).deviceId
        ((stC7.clockOffsets ((wClump phoneA 36).headD default).deviceId).getD 0)
        onsetC7).loudnessDb = toDb lgStub onsetC7.loudnessDb :=
  (loudness_toDb_between_detector_and_store sqrtStub lgStub 0 (wClump phoneA 36) stC7
    onsetC7 rfl (by with_unfolding_all rfl)).2.2.1

/-- C7 counterexample: a localize-mode run whose detector peak is the
raw amplitude 100000 commits an event recording 100 - the 20 log10
transform of the peak (log10 100000 = 5) - in the phone-a device entry,
so the stored loudness does not equal the detector's peak and a unit
transform does sit between detector output and the event record. -/
theorem loudness_raw_units_cex :
    detectClapOnset CLAP_THRESHOLD (wClump phoneA 36) = some onsetC7 ∧
    onsetC7.loudnessDb = 100000 ∧
    (localizeEnqueue lgStub 0 phoneA onsetC7 stC7).pendingPackets.map
      (fun p => p.loudnessDb) = [77, 88, 100] ∧
    ((tryResolveEvent sqrtStub 0 (localizeEnqueue lgStub 0 phoneA onsetC7 stC7)).1).map
      (fun ev => ev.devices.map (fun e => e.loudnessDb)) = some [100, 77, 88] ∧
    (100 : ℚ) ≠ 100000 :=
  ⟨by with_unfolding_all rfl, rfl, by with_unfolding_all rfl,
   by with_unfolding_all rfl, of_decide_eq_true (by with_unfolding_all rfl)⟩

/-! Helper lemmas about the event store. -/

theorem addSoundEvents_cons (d : EventData) (rest : List EventData) (st : Store) :
    addSoundEvents (d :: rest) st = addSoundEvents rest (addSoundEvent d st).2 := rfl

theorem addSoundEvents_counter (l : List EventData) (st : Store) :
    (addSoundEvents l st).eventCounter = st.eventCounter + l.length := by
  induction l generalizing st with
  | nil => simp [addSoundEvents]
  | cons d rest ih =>
    rw [addSoundEvents_cons, ih]
    simp only [addSoundEvent, List.length_cons]
    omega

theorem addSoundEvent_step (d : EventData) (st : Store)
    (hids : st.soundEvents.map (fun e => e.id) =
      List.range' (st.eventCounter + 1 - st.soundEvents.length) st.soundEvents.length)
    (hlen : st.soundEvents.length = min st.eventCounter 100) :
    ((addSoundEvent d st).2.soundEvents.map (fun e => e.id) =
      List.range' ((addSoundEvent d st).2.eventCounter + 1 -
        (addSoundEvent d st).2.soundEvents.length) (addSoundEvent d st).2.soundEvents.length) ∧
    (addSoundEvent d st).2.soundEvents.length = min (addSoundEvent d st).2.eventCounter 100 := by
  have hmn : st.soundEvents.length ≤ st.eventCounter := by omega
  have happ : (st.soundEvents ++
        [(⟨st.eventCounter + 1, d.position, d.devices, d.timespanMs⟩ : SoundEvent)]).map
          (fun e => e.id) =
      List.range' (st.eventCounter + 1 - st.soundEvents.length) (st.soundEvents.length + 1) := by
    rw [List.map_append, hids, List.map_cons, List.map_nil, List.range'_concat]
    congr 1
    simp only [List.cons.injEq, and_true]
    omega
  simp only [addSoundEvent]
  by_cases hc : 100 < (st.soundEvents ++
      [(⟨st.eventCounter + 1, d.position, d.devices, d.timespanMs⟩ : SoundEvent)]).length
  · rw [if_pos hc]
    rw [List.length_append, List.length_singleton] at hc
    have hm : st.soundEvents.length = 100 := by omega
    have hlenA : (st.soundEvents ++
        [(⟨st.eventCounter + 1, d.position, d.devices, d.timespanMs⟩ : SoundEvent)]).length =
        101 := by
      rw [List.length_append, List.length_singleton, hm]
    constructor
    · rw [List.map_tail, happ, hm, List.range'_succ, List.tail_cons, List.length_tail, hlenA]
      congr 1
      omega
    · rw [List.length_tail, hlenA]
      omega
  · rw [if_neg hc]
    rw [List.length_append, List.length_singleton] at hc
    constructor
    · rw [happ]
      simp only [List.length_append, List.length_singleton]
      congr 1
      omega
    · simp only [List.length_append, List.length_singleton]
      omega

theorem addSoundEvents_invariant (l : List EventData) (st : Store)
    (hids : st.soundEvents.map (fun e => e.id) =
      List.range' (st.eventCounter + 1 - st.soundEvents.length) st.soundEvents.length)
    (hlen : st.soundEvents.length = min st.eventCounter 100) :
    ((addSoundEvents l st).soundEvents.map (fun e => e.id) =
      List.range' ((addSoundEvents l st).eventCounter + 1 -
        (addSoundEvents l st).soundEvents.length) (addSoundEvents l st).soundEvents.length) ∧
    (addSoundEvents l st).soundEvents.length = min (addSoundEvents l st).eventCounter 100 := by
  induction l generalizing st with
  | nil => exact ⟨hids, hlen⟩
  | cons d rest ih =>
    rw [addSoundEvents_cons]
    obtain ⟨h1, h2⟩ := addSoundEvent_step d st hids hlen
    exact ih _ h1 h2

/-- C9: starting from the empty store, the k-th committed event receives
id k (ids increase by exactly one from 1 over the store's lifetime), and
after any sequence of commits the store retains the last min(n, 100)
events - the consecutive ids ending at n - so at most 100 events are
stored and the oldest is dropped first. -/
theorem soundEvent_ids_and_retention (l : List EventData) :
    ((addSoundEvents l initialStore).soundEvents.map (fun e => e.id) =
      List.range' (l.length + 1 - min l.length 100) (min l.length 100)) ∧
    (addSoundEvents l initialStore).soundEvents.length = min l.length 100 ∧
    (∀ (pre : List EventData) (d : EventData),
      (addSoundEvent d (addSoundEvents pre initialStore)).1.id = pre.length + 1) := by
  have hinv := addSoundEvents_invariant l initialStore (by simp [initialStore]) (by
    simp [initialStore])
  have hcnt := addSoundEvents_counter l initialStore
  rw [hcnt] at hinv
  simp only [initialStore] at hinv
  obtain ⟨h1, h2⟩ := hinv
  rw [h2] at h1
  refine ⟨by simpa using h1, by simpa using h2, ?_⟩
  intro pre d
  have hc := addSoundEvents_counter pre initialStore
  simp only [addSoundEvent]
  rw [hc]
  simp [initialStore]

end SlotServer
